import Mathlib

/-!
# Formal model of StorageTS (`packages/storagets/src/use-storagets.ts`)

A shallow embedding of the `useStorageTS` React hook: a reactive binding
between component state and browser `localStorage`, with optional
validation.  The hook's internal React state (`useState<T | null>(null)`),
its `validator` wrapper, its `setValue` update operation and its
`useEffect` initialization read are transcribed directly from the source.

External platform primitives (`JSON.stringify` / `JSON.parse`,
`localStorage`) are not code of this repository; they are modelled
following the spec's description of them (Sections 3 and 6 of the spec):
a synchronous string-keyed store, and a round-trip-safe textual
interchange format.
-/

namespace StorageTS

/-- JSON-compatible structured values: the application-defined value shape
(`T extends Record<string, unknown>` instantiates to `obj` values; the
other constructors are the remaining JSON-compatible field values). -/
inductive Json where
  | null : Json
  | bool (b : Bool) : Json
  | num (n : Int) : Json
  | str (s : String) : Json
  | arr (elems : List Json) : Json
  | obj (fields : List (String × Json)) : Json

/-- Modelled from the spec: the serialized textual form produced and
consumed by the platform's `JSON.stringify` / `JSON.parse` (not code of
this repository).  Per the spec's data-model invariant the format is
round-trip safe, so well-formed text is modelled by the `Json` value it
denotes; `corrupt raw` models any stored text that is not parseable as
structured interchange data. -/
inductive StoredText where
  | json (v : Json) : StoredText
  | corrupt (raw : String) : StoredText

/-- Modelled from the spec: `JSON.stringify` serializes a value to its
round-trip-safe textual form. -/
def stringify (v : Json) : StoredText := .json v

/-- Modelled from the spec: `JSON.parse` recovers the value denoted by
well-formed text and throws (modelled as `.error`) on non-parseable text. -/
def jsonParse : StoredText → Except Unit Json
  | .json v => .ok v
  | .corrupt _ => .error ()

/-- JavaScript truthiness of the string returned by `getItem`, used by the
source's `if (value)` guard: the empty string is falsy, all other stored
text is truthy.  (`stringify` output is never the empty string.) -/
def truthyText : StoredText → Bool
  | .json _ => true
  | .corrupt raw => !(raw == "")

/-- The browser's `localStorage`, modelled per the spec as a synchronous,
string-keyed, string-valued key-value store. -/
abbrev Store := List (String × StoredText)

/-- The read `localStorage.getItem(key)`: first entry under `key`, or absent. -/
def getItem (s : Store) (k : String) : Option StoredText :=
  (s.find? (fun e => e.1 == k)).map (fun e => e.2)

/-- The write `localStorage.setItem(key, text)`: replace the entry under `key` in
place, or append a new one. -/
def setItem : Store → String → StoredText → Store
  | [], k, v => [(k, v)]
  | (k1, v1) :: rest, k, v =>
    if k1 == k then (k, v) :: rest else (k1, v1) :: setItem rest k v

/-- A caller-supplied `validatorFn : (data: unknown) => T`.  At runtime it
may throw (modelled `.error ()`), return `undefined` despite its declared
type (modelled `.ok none`), or return a validated value (`.ok (some v)`). -/
abbrev ValidatorFn := Json → Except Unit (Option Json)

/-- The three hook arguments `key`, `defaultValue`, `validatorFn?`. -/
structure Config where
  key : String
  defaultValue : Json
  validatorFn : Option ValidatorFn

/-- The hook's internal `validator` wrapper: if a `validatorFn` was
supplied, call it and catch any raised error (log and return `undefined`,
modelled `none`); with no `validatorFn`, pass the value through as `T`. -/
def validator (cfg : Config) (value : Json) : Option Json :=
  match cfg.validatorFn with
  | some f =>
    match f value with
    | .ok r => r
    | .error _ => none
  | none => some value

/-- The execution environment: whether `window` is defined (browser
context), and whether a `localStorage.setItem` call succeeds or raises
(e.g. quota exceeded) — the store's failure modes are outside the
component's control per the spec's external-interface section. -/
structure Env where
  windowDefined : Bool
  setItemOk : Bool

/-- The argument of the returned setter: a literal replacement value or a
function of the previous value. -/
inductive UpdateOrValue where
  | value (v : Json) : UpdateOrValue
  | fn (f : Json → Json) : UpdateOrValue

/-- Own enumerable fields of a value, as used by object spread.  For `obj`
values (the only values of the record type `T`) these are its fields;
spreading `null` or other primitives contributes no fields. -/
def fieldsOf : Json → List (String × Json)
  | .obj fs => fs
  | _ => []

/-- Property assignment on an object's field list: overwrite the first
occurrence of `k` in place, or append. -/
def setField : List (String × Json) → String → Json → List (String × Json)
  | [], k, v => [(k, v)]
  | (k1, v1) :: rest, k, v =>
    if k1 == k then (k, v) :: rest else (k1, v1) :: setField rest k v

/-- Copy `base` then assign each field of the second spread operand in
order, as `{ ...a, ...b }` does. -/
def spreadFields (base : List (String × Json)) : List (String × Json) → List (String × Json)
  | [] => base
  | (k, v) :: rest => spreadFields (setField base k v) rest

/-- The source's merge expression `{ ...state, ...value }`: spread the raw
React state (`null` contributes nothing) then the candidate value. -/
def mergeSpread (state : Option Json) (value : Json) : Json :=
  .obj (spreadFields (state.elim [] fieldsOf) (fieldsOf value))

/-- First-match field lookup in a value's fields (property access). -/
def lookupField (j : Json) (k : String) : Option Json :=
  ((fieldsOf j).find? (fun e => e.1 == k)).map (fun e => e.2)

/-- The candidate `finalValue` computed by `setValue` before validation:
apply an updater function to `state ?? defaultValue` or take the literal
value, then shallow-merge over the raw `state` when `options.merge` is
set. -/
def candidate (cfg : Config) (state : Option Json) (updateOrValue : UpdateOrValue)
    (merge : Bool) : Json :=
  let value :=
    match updateOrValue with
    | .fn f => f (state.getD cfg.defaultValue)
    | .value v => v
  if merge then mergeSpread state value else value

/-- Outcome of a `setValue` call: it returns normally, or an exception
propagates to the caller.  `setState` runs before `setItem` in the source,
so on a `setItem` failure the React state has already been updated while
the store has not. -/
inductive SetValueResult where
  | ok (state : Option Json) (store : Store) : SetValueResult
  | threw (state : Option Json) (store : Store) : SetValueResult

/-- The hook's `setValue`: no-op outside a browser; compute the candidate
(optionally merged); run it through `validator`; if validation yields
`undefined`, return leaving state and store untouched; otherwise
`setState` the validated value and `setItem` its serialization (the
`setItem` call is not wrapped in any try/catch in the source, so its
failure propagates). -/
def setValue (env : Env) (cfg : Config) (state : Option Json) (store : Store)
    (updateOrValue : UpdateOrValue) (merge : Bool) : SetValueResult :=
  if env.windowDefined = false then .ok state store
  else
    match validator cfg (candidate cfg state updateOrValue merge) with
    | some validatedValue =>
      if env.setItemOk then
        .ok (some validatedValue) (setItem store cfg.key (stringify validatedValue))
      else
        .threw (some validatedValue) store
    | none => .ok state store

/-- The hook's `useEffect` initialization read: no-op outside a browser;
read the raw text under `key`; if truthy, parse it and validate, adopting
the validated value via `setState`; a parse error is caught and logged
(the `console.error` side channel is not modelled), a validator error is
caught inside `validator`, and a validation result of `undefined` is
discarded — in each of these cases the state is left unchanged. -/
def initEffect (env : Env) (cfg : Config) (state : Option Json) (store : Store) :
    Option Json :=
  if env.windowDefined = false then state
  else
    match getItem store cfg.key with
    | none => state
    | some text =>
      if truthyText text then
        match jsonParse text with
        | .ok parsed =>
          match validator cfg parsed with
          | some validatedValue => some validatedValue
          | none => state
        | .error _ => state
      else state

/-- The value the hook returns to the caller: `state ?? defaultValue`. -/
def observable (cfg : Config) (state : Option Json) : Json :=
  state.getD cfg.defaultValue

/-- A fresh binding on a key: React state starts at `null`, then the
initialization effect runs against the store. -/
def freshBinding (env : Env) (cfg : Config) (store : Store) : Option Json :=
  initEffect env cfg none store

/-- One caller-visible operation on a binding: a `setValue` call, or a
re-run of the initialization effect (as after a key change). -/
inductive Op where
  | update (env : Env) (updateOrValue : UpdateOrValue) (merge : Bool) : Op
  | reinit (env : Env) : Op

/-- The state/store pair after a `setValue` call, whether it returned or
threw (on a throw `setState` has already run). -/
def resultState : SetValueResult → Option Json × Store
  | .ok state store => (state, store)
  | .threw state store => (state, store)

/-- Apply one operation to the binding's state and the store. -/
def applyOp (cfg : Config) : Option Json × Store → Op → Option Json × Store
  | (st, store), .update env u m => resultState (setValue env cfg st store u m)
  | (st, store), .reinit env => (initEffect env cfg st store, store)

/-- Run a sequence of operations from a starting state/store pair. -/
def runOps (cfg : Config) (start : Option Json × Store) (ops : List Op) :
    Option Json × Store :=
  ops.foldl (applyOp cfg) start

/-- Value `v` has been accepted by the validator: on some input, the
validator returned `v`. -/
def AcceptedBy (f : ValidatorFn) (v : Json) : Prop :=
  ∃ x, f x = Except.ok (some v)

/-- Invariant on the hook's internal state when a validator is supplied:
any adopted value was returned by the validator. -/
def StateOK (f : ValidatorFn) (st : Option Json) : Prop :=
  ∀ s, st = some s → AcceptedBy f s

/-- Field lookup directly on a field list. -/
def lookupFields (fs : List (String × Json)) (k : String) : Option Json :=
  (fs.find? (fun e => e.1 == k)).map (fun e => e.2)

theorem lookupField_eq (j : Json) (k : String) :
    lookupField j k = lookupFields (fieldsOf j) k := rfl

theorem getItem_setItem (s : Store) (k : String) (v : StoredText) :
    getItem (setItem s k v) k = some v := by
  induction s with
  | nil => simp [getItem, setItem]
  | cons hd tl ih =>
    obtain ⟨k1, v1⟩ := hd
    by_cases h : k1 = k
    · simp [getItem, setItem, h]
    · simpa [getItem, setItem, h] using ih

theorem lookupFields_cons (a : String) (b : Json) (tl : List (String × Json)) (k : String) :
    lookupFields ((a, b) :: tl) k = if a = k then some b else lookupFields tl k := by
  by_cases h : a = k
  · simp [lookupFields, List.find?, h]
  · have hb : (a == k) = false := beq_eq_false_iff_ne.mpr h
    simp [lookupFields, List.find?, h, hb]

theorem setField_cons (a : String) (b : Json) (tl : List (String × Json)) (k : String)
    (v : Json) :
    setField ((a, b) :: tl) k v =
      if a = k then (k, v) :: tl else (a, b) :: setField tl k v := by
  by_cases h : a = k <;> simp [setField, h]

theorem lookupFields_setField (fs : List (String × Json)) (k k1 : String) (v : Json) :
    lookupFields (setField fs k v) k1 =
      if k1 = k then some v else lookupFields fs k1 := by
  induction fs with
  | nil =>
    by_cases h : k1 = k
    · subst h; simp [setField, lookupFields_cons]
    · simp [setField, lookupFields_cons, h, Ne.symm h]
  | cons hd tl ih =>
    obtain ⟨k2, v2⟩ := hd
    rw [setField_cons]
    by_cases h2 : k2 = k
    · subst h2
      rw [if_pos rfl, lookupFields_cons, lookupFields_cons]
      by_cases h1 : k2 = k1
      · subst h1; simp
      · simp [h1, Ne.symm h1]
    · rw [if_neg h2, lookupFields_cons, ih, lookupFields_cons]
      by_cases h1 : k2 = k1
      · subst h1; simp [h2]
      · simp [h1]

theorem lookupFields_eq_none_of_not_mem (fs : List (String × Json)) (k : String)
    (h : k ∉ fs.map Prod.fst) : lookupFields fs k = none := by
  induction fs with
  | nil => rfl
  | cons hd tl ih =>
    obtain ⟨k1, v1⟩ := hd
    simp only [List.map_cons, List.mem_cons, not_or] at h
    have h1 : k1 ≠ k := fun hk => h.1 hk.symm
    simpa [lookupFields, h1] using ih h.2

theorem lookupFields_spreadFields (b : List (String × Json)) :
    ∀ (base : List (String × Json)) (k : String), (b.map Prod.fst).Nodup →
      lookupFields (spreadFields base b) k =
        (lookupFields b k).orElse (fun _ => lookupFields base k) := by
  induction b with
  | nil => intro base k _; simp [spreadFields, lookupFields, Option.orElse]
  | cons hd tl ih =>
    intro base k hnd
    obtain ⟨k1, v1⟩ := hd
    simp only [List.map_cons, List.nodup_cons] at hnd
    by_cases h : k = k1
    · subst h
      rw [spreadFields, ih _ _ hnd.2, lookupFields_eq_none_of_not_mem _ _ hnd.1,
        lookupFields_setField]
      simp [lookupFields, Option.orElse]
    · rw [spreadFields, ih _ _ hnd.2, lookupFields_setField]
      have h1 : k1 ≠ k := fun hk => h hk.symm
      simp [lookupFields, h, h1, Option.orElse]

theorem validator_some_accepted (cfg : Config) (f : ValidatorFn)
    (hf : cfg.validatorFn = some f) (x v : Json)
    (h : validator cfg x = some v) : AcceptedBy f v := by
  have h2 : (match f x with
      | Except.ok r => r
      | Except.error _ => none) = some v := by
    rw [← h, validator, hf]
  cases hx : f x with
  | ok r =>
    rw [hx] at h2
    have h3 : r = some v := h2
    exact ⟨x, by rw [hx, h3]⟩
  | error e =>
    rw [hx] at h2
    have h3 : (none : Option Json) = some v := h2
    cases h3

theorem setValue_preserves_StateOK (env : Env) (cfg : Config) (f : ValidatorFn)
    (st : Option Json) (store : Store) (u : UpdateOrValue) (m : Bool)
    (hf : cfg.validatorFn = some f) (hst : StateOK f st) :
    StateOK f (resultState (setValue env cfg st store u m)).1 := by
  rw [setValue]
  split
  · exact hst
  · split
    · next w hv =>
      have hacc := validator_some_accepted cfg f hf _ _ hv
      split
      · intro s hs
        have hs2 : some w = some s := hs
        injection hs2 with hws
        exact hws ▸ hacc
      · intro s hs
        have hs2 : some w = some s := hs
        injection hs2 with hws
        exact hws ▸ hacc
    · exact hst

theorem initEffect_preserves_StateOK (env : Env) (cfg : Config) (f : ValidatorFn)
    (st : Option Json) (store : Store)
    (hf : cfg.validatorFn = some f) (hst : StateOK f st) :
    StateOK f (initEffect env cfg st store) := by
  rw [initEffect]
  split
  · exact hst
  · split
    · exact hst
    · split
      · split
        · next parsed hp =>
          split
          · next w hv =>
            intro s hs
            have hs2 : some w = some s := hs
            injection hs2 with hws
            exact hws ▸ validator_some_accepted cfg f hf _ _ hv
          · exact hst
        · exact hst
      · exact hst

theorem runOps_preserves_StateOK (cfg : Config) (f : ValidatorFn)
    (hf : cfg.validatorFn = some f) (ops : List Op) :
    ∀ start : Option Json × Store, StateOK f start.1 →
      StateOK f (runOps cfg start ops).1 := by
  induction ops with
  | nil => intro start h; exact h
  | cons op rest ih =>
    intro start h
    have h1 : StateOK f (applyOp cfg start op).1 := by
      obtain ⟨st, store⟩ := start
      cases op with
      | update env u m => exact setValue_preserves_StateOK env cfg f st store u m hf h
      | reinit env => exact initEffect_preserves_StateOK env cfg f st store hf h
    simpa only [runOps, List.foldl_cons] using ih (applyOp cfg start op) h1

/-! Concrete environments, configurations and values used by the claim
witnesses and counterexamples. -/

/-- A browser context whose storage writes succeed. -/
def envOk : Env := ⟨true, true⟩

/-- A browser context whose storage writes raise (e.g. quota exceeded). -/
def envQuotaFull : Env := ⟨true, false⟩

/-- A binding with no validator. -/
def cfgPlain : Config := ⟨"k", Json.null, none⟩

/-- A validator that raises on every input. -/
def rejectAll : ValidatorFn := fun _ => Except.error ()

/-- A binding whose validator raises on every input. -/
def cfgReject : Config := ⟨"k", Json.null, some rejectAll⟩

/-- A validator that returns `undefined` on every input. -/
def undefinedAll : ValidatorFn := fun _ => Except.ok none

/-- A binding whose validator returns `undefined` on every input. -/
def cfgUndef : Config := ⟨"k", Json.null, some undefinedAll⟩

/-- A validator that accepts every input unchanged. -/
def acceptAll : ValidatorFn := fun x => Except.ok (some x)

/-- A binding whose validator accepts every input unchanged. -/
def cfgAccept : Config := ⟨"k", Json.null, some acceptAll⟩

/-- A binding with no validator whose default value is the record with the
single field a mapped to 1. -/
def cfgDefaultA : Config := ⟨"k", Json.obj [("a", Json.num 1)], none⟩

/-- The counter scenario's configuration: key "counter", default record
with count mapped to 0, no validator. -/
def counterCfg : Config := ⟨"counter", Json.obj [("count", Json.num 0)], none⟩

/-- The counter scenario's updater function, transcribing the source
example's updater (previous value to a record whose count field is the
previous count plus one).  The fallback arm is never reached in the
scenario, where the field is always a number. -/
def counterInc : UpdateOrValue :=
  .fn (fun prev =>
    Json.obj [("count",
      match lookupField prev ("count") with
      | some (Json.num n) => Json.num (n + 1)
      | _ => Json.null)])

theorem validator_eq_match (cfg : Config) (f : ValidatorFn)
    (hf : cfg.validatorFn = some f) (x : Json) :
    validator cfg x =
      (match f x with
        | Except.ok r => r
        | Except.error _ => none) := by
  rw [validator, hf]

theorem validator_none_of_error (cfg : Config) (f : ValidatorFn)
    (hf : cfg.validatorFn = some f) (x : Json) (h : f x = Except.error ()) :
    validator cfg x = none := by
  rw [validator_eq_match cfg f hf, h]

theorem validator_none_of_undefined (cfg : Config) (f : ValidatorFn)
    (hf : cfg.validatorFn = some f) (x : Json) (h : f x = Except.ok none) :
    validator cfg x = none := by
  rw [validator_eq_match cfg f hf, h]

/-- Claim C1: for every current state, candidate update and validator, if
the validator raises on the candidate value then the update returns
normally and leaves both the caller-observable state and the persisted
entry under the key unchanged from their pre-update values
(all-or-nothing per update). -/
theorem validator_raises_leaves_state_and_entry (env : Env) (cfg : Config)
    (st : Option Json) (store : Store) (u : UpdateOrValue) (m : Bool) (f : ValidatorFn)
    (hf : cfg.validatorFn = some f)
    (hraise : f (candidate cfg st u m) = Except.error ()) :
    ∃ st2 store2, setValue env cfg st store u m = SetValueResult.ok st2 store2 ∧
      observable cfg st2 = observable cfg st ∧
      getItem store2 cfg.key = getItem store cfg.key := by
  refine ⟨st, store, ?_, rfl, rfl⟩
  rw [setValue]
  by_cases hw : env.windowDefined = false
  · rw [if_pos hw]
  · rw [if_neg hw, validator_none_of_error cfg f hf _ hraise]

/-- Witness for C1: a binding whose validator rejects everything, updated
with a literal value from the initial state and the empty store. -/
theorem validator_raises_leaves_state_and_entry_witness :
    cfgReject.validatorFn = some rejectAll ∧
    rejectAll (candidate cfgReject none (UpdateOrValue.value Json.null) false) =
      Except.error () ∧
    (∃ st2 store2,
      setValue envOk cfgReject none [] (UpdateOrValue.value Json.null) false =
        SetValueResult.ok st2 store2 ∧
      observable cfgReject st2 = observable cfgReject none ∧
      getItem store2 cfgReject.key = getItem [] cfgReject.key) :=
  ⟨rfl, rfl,
    validator_raises_leaves_state_and_entry envOk cfgReject none []
      (UpdateOrValue.value Json.null) false rejectAll rfl rfl⟩

/-- Claim C2: writing a value the validator accepts unchanged and then
initializing a fresh binding on the same key yields an observable state
equal to that value (round-trip), in a browser context whose storage
write succeeds. -/
theorem write_then_fresh_binding_round_trip (env : Env) (cfg : Config)
    (st : Option Json) (store : Store) (V : Json)
    (hw : env.windowDefined = true) (hs : env.setItemOk = true)
    (hv : validator cfg V = some V) :
    ∃ st2 store2,
      setValue env cfg st store (UpdateOrValue.value V) false =
        SetValueResult.ok st2 store2 ∧
      observable cfg (freshBinding env cfg store2) = V := by
  refine ⟨some V, setItem store cfg.key (stringify V), ?_, ?_⟩
  · rw [setValue, if_neg (by simp [hw]),
      show candidate cfg st (UpdateOrValue.value V) false = V from rfl, hv]
    show (if env.setItemOk = true
        then SetValueResult.ok (some V) (setItem store cfg.key (stringify V))
        else SetValueResult.threw (some V) store) =
      SetValueResult.ok (some V) (setItem store cfg.key (stringify V))
    rw [if_pos hs]
  · rw [freshBinding, initEffect, if_neg (by simp [hw]), getItem_setItem]
    show observable cfg
      (match validator cfg V with
        | some validatedValue => some validatedValue
        | none => none) = V
    rw [hv]
    rfl

/-- Witness for C2: round trip of the record with field a mapped to 1
through a validator-free binding. -/
theorem write_then_fresh_binding_round_trip_witness :
    envOk.windowDefined = true ∧ envOk.setItemOk = true ∧
    validator cfgPlain (Json.obj [("a", Json.num 1)]) =
      some (Json.obj [("a", Json.num 1)]) ∧
    (∃ st2 store2,
      setValue envOk cfgPlain none []
          (UpdateOrValue.value (Json.obj [("a", Json.num 1)])) false =
        SetValueResult.ok st2 store2 ∧
      observable cfgPlain (freshBinding envOk cfgPlain store2) =
        Json.obj [("a", Json.num 1)]) :=
  ⟨rfl, rfl, rfl,
    write_then_fresh_binding_round_trip envOk cfgPlain none []
      (Json.obj [("a", Json.num 1)]) rfl rfl rfl⟩

/-- Counterexample to claim C3: in a browser context whose storage write
raises (e.g. quota exceeded), a plain valid update does not complete
normally — the exception from the unguarded `setItem` call propagates to
the caller (with the state already updated by the preceding `setState`). -/
theorem storage_write_failure_surfaces :
    setValue envQuotaFull cfgPlain none []
        (UpdateOrValue.value (Json.obj [("a", Json.num 1)])) false =
      SetValueResult.threw (some (Json.obj [("a", Json.num 1)])) [] := rfl

/-- Claim C3 as amended: parse failures and validation failures are never
surfaced to the caller, and every update whose storage write succeeds
returns normally (initialization, whose parse and validation errors are
caught, is the total function `initEffect` and always completes); only a
failing storage write during an update escapes. -/
theorem setValue_ok_when_write_succeeds (env : Env) (cfg : Config) (st : Option Json)
    (store : Store) (u : UpdateOrValue) (m : Bool) (hs : env.setItemOk = true) :
    ∃ st2 store2, setValue env cfg st store u m = SetValueResult.ok st2 store2 := by
  by_cases hw : env.windowDefined = false
  · exact ⟨st, store, by rw [setValue, if_pos hw]⟩
  · cases hv : validator cfg (candidate cfg st u m) with
    | none => exact ⟨st, store, by rw [setValue, if_neg hw, hv]⟩
    | some w =>
      refine ⟨some w, setItem store cfg.key (stringify w), ?_⟩
      rw [setValue, if_neg hw, hv]
      show (if env.setItemOk = true
          then SetValueResult.ok (some w) (setItem store cfg.key (stringify w))
          else SetValueResult.threw (some w) store) =
        SetValueResult.ok (some w) (setItem store cfg.key (stringify w))
      rw [if_pos hs]

/-- Witness for the amended C3: a rejected update in a working browser
context returns normally. -/
theorem setValue_ok_when_write_succeeds_witness :
    envOk.setItemOk = true ∧
    (∃ st2 store2,
      setValue envOk cfgReject none [] (UpdateOrValue.value Json.null) false =
        SetValueResult.ok st2 store2) :=
  ⟨rfl,
    setValue_ok_when_write_succeeds envOk cfgReject none []
      (UpdateOrValue.value Json.null) false rfl⟩

/-- Counterexample to claim C4: before any persisted value has been
adopted, the caller observes the default (here the record with a mapped
to 1), yet a merge update with candidate (b mapped to 2) spreads over the
raw null state, so the resulting state drops the field a instead of
preserving it as the claim requires. -/
theorem merge_ignores_default_before_adoption :
    observable cfgDefaultA none = Json.obj [("a", Json.num 1)] ∧
    setValue envOk cfgDefaultA none []
        (UpdateOrValue.value (Json.obj [("b", Json.num 2)])) true =
      SetValueResult.ok (some (Json.obj [("b", Json.num 2)]))
        [("k", StoredText.json (Json.obj [("b", Json.num 2)]))] ∧
    lookupField (Json.obj [("b", Json.num 2)]) "a" = none :=
  ⟨rfl, rfl, rfl⟩

/-- Claim C4 as amended: a merge update shallow-merges the candidate over
the raw internal state (which equals the Observable State once a value
has been adopted, but is the empty record before adoption, so default
fields are not preserved then): the result adopts it wholesale, candidate
fields win, fields of the internal state absent from the candidate are
kept, and each field's value is the candidate's value itself (one level
deep, never a deep merge). -/
theorem setValue_merge_over_internal_state (env : Env) (cfg : Config)
    (st : Option Json) (store : Store) (v : Json) (k : String)
    (hw : env.windowDefined = true) (hs : env.setItemOk = true)
    (hnd : ((fieldsOf v).map Prod.fst).Nodup)
    (hv : validator cfg (mergeSpread st v) = some (mergeSpread st v)) :
    ∃ store2,
      setValue env cfg st store (UpdateOrValue.value v) true =
        SetValueResult.ok (some (mergeSpread st v)) store2 ∧
      lookupField (mergeSpread st v) k =
        Option.orElse (lookupField v k)
          (fun _ => lookupFields (st.elim [] fieldsOf) k) := by
  refine ⟨setItem store cfg.key (stringify (mergeSpread st v)), ?_, ?_⟩
  · rw [setValue, if_neg (by simp [hw]),
      show candidate cfg st (UpdateOrValue.value v) true = mergeSpread st v from rfl, hv]
    show (if env.setItemOk = true
        then SetValueResult.ok (some (mergeSpread st v))
          (setItem store cfg.key (stringify (mergeSpread st v)))
        else SetValueResult.threw (some (mergeSpread st v)) store) =
      SetValueResult.ok (some (mergeSpread st v))
        (setItem store cfg.key (stringify (mergeSpread st v)))
    rw [if_pos hs]
  · rw [lookupField_eq,
      show fieldsOf (mergeSpread st v) =
        spreadFields (st.elim [] fieldsOf) (fieldsOf v) from rfl,
      lookupFields_spreadFields _ _ _ hnd, lookupField_eq]

/-- Witness for the amended C4: merging (b mapped to 2) over the adopted
state (a mapped to 1) and sampling the preserved field a. -/
theorem setValue_merge_over_internal_state_witness :
    envOk.windowDefined = true ∧ envOk.setItemOk = true ∧
    ((fieldsOf (Json.obj [("b", Json.num 2)])).map Prod.fst).Nodup ∧
    validator cfgPlain
        (mergeSpread (some (Json.obj [("a", Json.num 1)])) (Json.obj [("b", Json.num 2)])) =
      some (mergeSpread (some (Json.obj [("a", Json.num 1)])) (Json.obj [("b", Json.num 2)])) ∧
    (∃ store2,
      setValue envOk cfgPlain (some (Json.obj [("a", Json.num 1)])) []
          (UpdateOrValue.value (Json.obj [("b", Json.num 2)])) true =
        SetValueResult.ok
          (some (mergeSpread (some (Json.obj [("a", Json.num 1)])) (Json.obj [("b", Json.num 2)])))
          store2 ∧
      lookupField (mergeSpread (some (Json.obj [("a", Json.num 1)])) (Json.obj [("b", Json.num 2)])) "a" =
        Option.orElse (lookupField (Json.obj [("b", Json.num 2)]) "a")
          (fun _ =>
            lookupFields ((some (Json.obj [("a", Json.num 1)])).elim [] fieldsOf) "a")) :=
  ⟨rfl, rfl, by decide, rfl,
    setValue_merge_over_internal_state envOk cfgPlain
      (some (Json.obj [("a", Json.num 1)])) [] (Json.obj [("b", Json.num 2)]) "a"
      rfl rfl (by decide) rfl⟩

/-- Claim C5: with adopted state (a mapped to 1, b mapped to the record
with x mapped to 1), a merge update with (b mapped to the record with y
mapped to 2) and no validator yields the observable state (a mapped to 1,
b mapped to the record with y mapped to 2): the nested object under b is
replaced wholesale, not deep-merged. -/
theorem merge_replaces_nested_object_example :
    setValue envOk cfgPlain
        (some (Json.obj [("a", Json.num 1), ("b", Json.obj [("x", Json.num 1)])])) []
        (UpdateOrValue.value (Json.obj [("b", Json.obj [("y", Json.num 2)])])) true =
      SetValueResult.ok
        (some (Json.obj [("a", Json.num 1), ("b", Json.obj [("y", Json.num 2)])]))
        [("k", StoredText.json
          (Json.obj [("a", Json.num 1), ("b", Json.obj [("y", Json.num 2)])]))] ∧
    observable cfgPlain
        (some (Json.obj [("a", Json.num 1), ("b", Json.obj [("y", Json.num 2)])])) =
      Json.obj [("a", Json.num 1), ("b", Json.obj [("y", Json.num 2)])] :=
  ⟨rfl, rfl⟩

/-- Claim C6: for every key and default value, if no entry exists in the
store under the key, the state exposed to the caller after initialization
equals the default value. -/
theorem init_without_entry_yields_default (env : Env) (cfg : Config) (store : Store)
    (h : getItem store cfg.key = none) :
    observable cfg (freshBinding env cfg store) = cfg.defaultValue := by
  rw [freshBinding, initEffect]
  by_cases hw : env.windowDefined = false
  · rw [if_pos hw]; rfl
  · rw [if_neg hw, h]; rfl

/-- Witness for C6: a fresh binding against the empty store. -/
theorem init_without_entry_yields_default_witness :
    getItem [] cfgPlain.key = none ∧
    observable cfgPlain (freshBinding envOk cfgPlain []) = cfgPlain.defaultValue :=
  ⟨rfl, init_without_entry_yields_default envOk cfgPlain [] rfl⟩

/-- Claim C7: for every stored text that is not parseable as structured
interchange data, initialization completes (the parse error is caught;
`initEffect` is total) and the state exposed to the caller remains the
default value. -/
theorem init_corrupt_text_yields_default (env : Env) (cfg : Config) (store : Store)
    (raw : String) (h : getItem store cfg.key = some (StoredText.corrupt raw)) :
    observable cfg (freshBinding env cfg store) = cfg.defaultValue := by
  rw [freshBinding, initEffect]
  by_cases hw : env.windowDefined = false
  · rw [if_pos hw]; rfl
  · rw [if_neg hw, h]
    show observable cfg
      (if truthyText (StoredText.corrupt raw) = true
        then match jsonParse (StoredText.corrupt raw) with
          | Except.ok parsed =>
            match validator cfg parsed with
            | some validatedValue => some validatedValue
            | none => none
          | Except.error _ => none
        else none) = cfg.defaultValue
    by_cases hr : truthyText (StoredText.corrupt raw) = true
    · rw [if_pos hr]; rfl
    · rw [if_neg hr]; rfl

/-- Witness for C7: a fresh binding against a store holding non-parseable
text under the key. -/
theorem init_corrupt_text_yields_default_witness :
    getItem [("k", StoredText.corrupt ("oops"))] cfgPlain.key =
      some (StoredText.corrupt ("oops")) ∧
    observable cfgPlain (freshBinding envOk cfgPlain [("k", StoredText.corrupt ("oops"))]) =
      cfgPlain.defaultValue :=
  ⟨rfl,
    init_corrupt_text_yields_default envOk cfgPlain
      [("k", StoredText.corrupt ("oops"))] ("oops") rfl⟩

/-- Claim C8: starting from key "counter" with default (count mapped to 0)
and no validator, applying the increment updater three times sequentially
(each call observing the state produced by the previous one) yields the
final observable state (count mapped to 3) and a persisted entry whose
text represents the record with count mapped to 3. -/
theorem counter_three_sequential_increments :
    runOps counterCfg (none, [])
        [Op.update envOk counterInc false, Op.update envOk counterInc false,
          Op.update envOk counterInc false] =
      (some (Json.obj [("count", Json.num 3)]),
        [("counter", StoredText.json (Json.obj [("count", Json.num 3)]))]) ∧
    observable counterCfg (some (Json.obj [("count", Json.num 3)])) =
      Json.obj [("count", Json.num 3)] ∧
    getItem [("counter", StoredText.json (Json.obj [("count", Json.num 3)]))] "counter" =
      some (stringify (Json.obj [("count", Json.num 3)])) :=
  ⟨rfl, rfl, rfl⟩

/-- Claim C9: when a validator is supplied, after initialization and after
every sequence of operations the value exposed to the caller is either
the default value or a value the validator has returned; a value the
validator has not accepted is never exposed. -/
theorem exposed_value_default_or_validated (cfg : Config) (f : ValidatorFn)
    (hf : cfg.validatorFn = some f) (store0 : Store) (ops : List Op) :
    observable cfg (runOps cfg (none, store0) ops).1 = cfg.defaultValue ∨
      AcceptedBy f (observable cfg (runOps cfg (none, store0) ops).1) := by
  have h := runOps_preserves_StateOK cfg f hf ops (none, store0)
    (fun s hs => Option.noConfusion hs)
  cases hres : (runOps cfg (none, store0) ops).1 with
  | none => left; rfl
  | some s =>
    right
    exact h s hres

/-- Witness for C9: the accept-everything validator over the empty
operation sequence. -/
theorem exposed_value_default_or_validated_witness :
    cfgAccept.validatorFn = some acceptAll ∧
    (observable cfgAccept (runOps cfgAccept (none, []) []).1 = cfgAccept.defaultValue ∨
      AcceptedBy acceptAll (observable cfgAccept (runOps cfgAccept (none, []) []).1)) :=
  ⟨rfl, exposed_value_default_or_validated cfgAccept acceptAll rfl [] []⟩

/-- Claim C10: a validator returning `undefined` instead of throwing is
treated exactly like a validation failure by both the update operation
and the initialization read: the value is discarded, state and persisted
entry are left unchanged, and no error reaches the caller. -/
theorem validator_undefined_treated_as_failure (env : Env) (cfg : Config)
    (f : ValidatorFn) (st : Option Json) (store : Store) (u : UpdateOrValue)
    (m : Bool) (text : StoredText) (pv : Json)
    (hf : cfg.validatorFn = some f)
    (h1 : f (candidate cfg st u m) = Except.ok none)
    (hg : getItem store cfg.key = some text)
    (hp : jsonParse text = Except.ok pv)
    (h2 : f pv = Except.ok none) :
    setValue env cfg st store u m = SetValueResult.ok st store ∧
      initEffect env cfg st store = st := by
  constructor
  · rw [setValue]
    by_cases hw : env.windowDefined = false
    · rw [if_pos hw]
    · rw [if_neg hw, validator_none_of_undefined cfg f hf _ h1]
  · rw [initEffect]
    by_cases hw : env.windowDefined = false
    · rw [if_pos hw]
    · rw [if_neg hw, hg]
      cases text with
      | corrupt raw => exact absurd hp (by simp [jsonParse])
      | json v0 =>
        have hv0 : v0 = pv := by
          have h3 : Except.ok (ε := Unit) v0 = Except.ok pv := hp
          injection h3
        subst hv0
        show (if truthyText (StoredText.json v0) = true
            then match jsonParse (StoredText.json v0) with
              | Except.ok parsed =>
                match validator cfg parsed with
                | some validatedValue => some validatedValue
                | none => st
              | Except.error _ => st
            else st) = st
        rw [if_pos (show truthyText (StoredText.json v0) = true from rfl)]
        show (match validator cfg v0 with
          | some validatedValue => some validatedValue
          | none => st) = st
        rw [validator_none_of_undefined cfg f hf _ h2]

/-- Witness for C10: the undefined-returning validator with a stored
well-formed entry, exercised on both the update and the initialization
paths. -/
theorem validator_undefined_treated_as_failure_witness :
    cfgUndef.validatorFn = some undefinedAll ∧
    undefinedAll (candidate cfgUndef none (UpdateOrValue.value Json.null) false) =
      Except.ok none ∧
    getItem [("k", StoredText.json Json.null)] cfgUndef.key =
      some (StoredText.json Json.null) ∧
    jsonParse (StoredText.json Json.null) = Except.ok Json.null ∧
    undefinedAll Json.null = Except.ok none ∧
    (setValue envOk cfgUndef none [("k", StoredText.json Json.null)]
        (UpdateOrValue.value Json.null) false =
      SetValueResult.ok none [("k", StoredText.json Json.null)] ∧
      initEffect envOk cfgUndef none [("k", StoredText.json Json.null)] = none) :=
  ⟨rfl, rfl, rfl, rfl, rfl,
    validator_undefined_treated_as_failure envOk cfgUndef undefinedAll none
      [("k", StoredText.json Json.null)] (UpdateOrValue.value Json.null) false
      (StoredText.json Json.null) Json.null rfl rfl rfl rfl rfl⟩

end StorageTS
